import Mathlib

/-!
Shallow embedding of the snake_rs game engine (src/game.rs, src/config.rs).

Modelling conventions:
* Rust `u16` coordinates and board dimensions are embedded as `Nat`.
  `u16::saturating_sub 1` is exactly truncated subtraction on `Nat`
  (`0 - 1 = 0`), so the saturating arithmetic of `Snake::move_forward`
  is `Nat` subtraction.  The claims under study keep all values far
  below `2^16`, where `u16` and `Nat` arithmetic agree.
* `VecDeque<Position>` becomes `List Position` with the front of the
  list as the snake's head: `push_front` is `cons`, `push_back` is
  `· ++ [x]`, `pop_back` is `dropLast` plus `getLast`.
* Rust operations that can panic (`unwrap` on an empty body) return
  `Option`: `none` models the panic.
* The thread-local RNG of `Game::spawn_food` is modelled by an explicit
  sample stream `f : Nat → Position` (the successive values drawn by
  `random_range`) together with a fuel bound on the reject-and-resample
  loop; `none` models non-termination within the fuel.
-/

namespace SnakeRs

structure Position where
  x : Nat
  y : Nat
deriving DecidableEq, Repr

inductive Direction where
  | Up
  | Down
  | Left
  | Right
deriving DecidableEq, Repr

def Direction.opposite : Direction → Direction
  | .Up => .Down
  | .Down => .Up
  | .Left => .Right
  | .Right => .Left

inductive GameState where
  | Playing
  | Paused
  | GameOver
deriving DecidableEq, Repr

inductive GameEvent where
  | None
  | Moved
  | FoodEaten
  | GameOver
deriving DecidableEq, Repr

/-- `Snake { body: VecDeque<Position>, direction: Direction }`;
the head is the front, i.e. the first list element. -/
structure Snake where
  body : List Position
  direction : Direction
deriving DecidableEq, Repr

/-- `Snake::new`: body = `[start_pos]`, direction = Right. -/
def Snake.new (start_pos : Position) : Snake :=
  { body := [start_pos], direction := .Right }

/-- `Snake::set_direction`: update unless the new direction is the exact
opposite of the current one. -/
def Snake.set_direction (s : Snake) (direction : Direction) : Snake :=
  if direction ≠ s.direction.opposite then { s with direction := direction } else s

/-- The new head computed by `Snake::move_forward`: one step in the current
direction with `saturating_sub` at the zero boundary (here `Nat` subtraction). -/
def stepSaturating (d : Direction) (head : Position) : Position :=
  match d with
  | .Up => ⟨head.x, head.y - 1⟩
  | .Down => ⟨head.x, head.y + 1⟩
  | .Left => ⟨head.x - 1, head.y⟩
  | .Right => ⟨head.x + 1, head.y⟩

/-- `Snake::move_forward`: push the new head to the front, pop and return the
old tail.  `none` models the `unwrap` panic on an empty body. -/
def Snake.move_forward (s : Snake) : Option (Snake × Position) :=
  match s.body with
  | [] => none
  | h :: t =>
    let b := stepSaturating s.direction h :: h :: t
    some ({ body := b.dropLast, direction := s.direction },
      b.getLast (List.cons_ne_nil _ _))

/-- The new head computed by `Snake::move_forward_with_wrapping`. -/
def stepWrapping (d : Direction) (head : Position) (board_width board_height : Nat) :
    Position :=
  match d with
  | .Up => if head.y = 0 then ⟨head.x, board_height - 1⟩ else ⟨head.x, head.y - 1⟩
  | .Down => if head.y ≥ board_height - 1 then ⟨head.x, 0⟩ else ⟨head.x, head.y + 1⟩
  | .Left => if head.x = 0 then ⟨board_width - 1, head.y⟩ else ⟨head.x - 1, head.y⟩
  | .Right => if head.x ≥ board_width - 1 then ⟨0, head.y⟩ else ⟨head.x + 1, head.y⟩

/-- `Snake::move_forward_with_wrapping`: as `move_forward` but wrapping at the
board edges. -/
def Snake.move_forward_with_wrapping (s : Snake) (board_width board_height : Nat) :
    Option (Snake × Position) :=
  match s.body with
  | [] => none
  | h :: t =>
    let b := stepWrapping s.direction h board_width board_height :: h :: t
    some ({ body := b.dropLast, direction := s.direction },
      b.getLast (List.cons_ne_nil _ _))

/-- `Snake::grow`: re-append a previously popped tail segment. -/
def Snake.grow (s : Snake) (old_tail : Position) : Snake :=
  { s with body := s.body ++ [old_tail] }

/-- `Snake::check_self_collision`: some segment other than the head equals the
head.  (In Rust an empty body would panic in `head()`; every call site has a
non-empty body, and the `[]` case here is arbitrary.) -/
def Snake.check_self_collision (s : Snake) : Bool :=
  match s.body with
  | [] => false
  | h :: t => decide (h ∈ t)

/-- `Snake::len`. -/
def Snake.len (s : Snake) : Nat :=
  s.body.length

/-- `const INITIAL_SNAKE_LENGTH: usize = 4`. -/
def INITIAL_SNAKE_LENGTH : Nat := 4

/-- `Game`, minus the `ThreadRng` field, which is modelled by the explicit
sample streams passed to `spawn_food` / `update` / `reset` / `new`. -/
structure Game where
  snake : Snake
  food : Position
  score : Nat
  state : GameState
  board_width : Nat
  board_height : Nat
  wall_wrapping : Bool
deriving DecidableEq, Repr

/-- `Game::is_out_of_bounds`. -/
def Game.is_out_of_bounds (g : Game) (pos : Position) : Bool :=
  decide (pos.x ≥ g.board_width ∨ pos.y ≥ g.board_height)

/-- The reject-and-resample loop of `Game::spawn_food`, reading candidate
positions from the sample stream `f` starting at index `idx`, with `fuel`
bounding the number of iterations (`none` = did not terminate within fuel). -/
def findFood (f : Nat → Position) (body : List Position) : Nat → Nat → Option Position
  | 0, _ => none
  | fuel + 1, idx =>
    if f idx ∈ body then findFood f body fuel (idx + 1) else some (f idx)

/-- `Game::spawn_food`: loop sampling positions until one misses the snake,
then store it as the food. -/
def Game.spawn_food (f : Nat → Position) (fuel : Nat) (g : Game) : Option Game :=
  (findFood f g.snake.body fuel 0).map fun p => { g with food := p }

/-- `Game::grow_to_initial_length` body, one iteration:
`let tail = self.snake.move_forward(); self.snake.grow(tail)`. -/
def Snake.growStep (s : Snake) : Option Snake :=
  s.move_forward.map fun pr => pr.1.grow pr.2

/-- `Game::grow_to_initial_length`'s loop on the snake: `length` iterations of
move-and-regrow. -/
def Snake.growRepeat (s : Snake) : Nat → Option Snake
  | 0 => some s
  | n + 1 => s.growStep.bind fun s2 => s2.growRepeat n

/-- `Game::grow_to_initial_length`. -/
def Game.grow_to_initial_length (g : Game) (length : Nat) : Option Game :=
  (g.snake.growRepeat length).map fun s => { g with snake := s }

/-- `Game::new`: seed the snake at `(w/2, h/3)`, grow to the initial length,
then spawn food.  Wall wrapping defaults to `false`. -/
def Game.new (f : Nat → Position) (fuel : Nat) (board_width board_height : Nat) :
    Option Game :=
  let start_pos : Position := ⟨board_width / 2, board_height / 3⟩
  let g : Game :=
    { snake := Snake.new start_pos, food := ⟨0, 0⟩, score := 0, state := .Playing,
      board_width := board_width, board_height := board_height, wall_wrapping := false }
  (g.grow_to_initial_length INITIAL_SNAKE_LENGTH).bind (Game.spawn_food f fuel)

/-- `Game::reset`: fresh snake at `(w/2, h/2)`, regrow, zero the score, state
Playing, new food; board size and wall wrapping untouched. -/
def Game.reset (f : Nat → Position) (fuel : Nat) (g : Game) : Option Game :=
  let start_pos : Position := ⟨g.board_width / 2, g.board_height / 2⟩
  (({ g with snake := Snake.new start_pos } : Game).grow_to_initial_length
      INITIAL_SNAKE_LENGTH).bind fun g2 =>
    Game.spawn_food f fuel { g2 with score := 0, state := .Playing }

/-- `Game::set_wall_wrapping`. -/
def Game.set_wall_wrapping (g : Game) (enabled : Bool) : Game :=
  { g with wall_wrapping := enabled }

/-- `Game::set_direction`: forwarded to the snake only while Playing. -/
def Game.set_direction (g : Game) (direction : Direction) : Game :=
  if g.state = .Playing then { g with snake := g.snake.set_direction direction } else g

/-- `Game::toggle_pause`. -/
def Game.toggle_pause (g : Game) : Game :=
  match g.state with
  | .Playing => { g with state := .Paused }
  | .Paused => { g with state := .Playing }
  | .GameOver => g

/-- The `let old_tail = if self.wall_wrapping { … } else { … }` selection at
the top of `Game::update`. -/
def Game.moveStep (g : Game) : Option (Snake × Position) :=
  if g.wall_wrapping then
    g.snake.move_forward_with_wrapping g.board_width g.board_height
  else
    g.snake.move_forward

/-- `Game::update`: one simulation tick.  `f`/`fuel` feed `spawn_food` in the
food-eaten branch; `none` models a panic or a spawn loop that outruns its
fuel. -/
def Game.update (f : Nat → Position) (fuel : Nat) (g : Game) :
    Option (Game × GameEvent) :=
  if g.state ≠ GameState.Playing then some (g, GameEvent.None)
  else
    g.moveStep.bind fun pr =>
      pr.1.body.head?.bind fun head =>
        if !g.wall_wrapping && g.is_out_of_bounds head then
          some ({ g with snake := pr.1, state := .GameOver }, .GameOver)
        else if pr.1.check_self_collision then
          some ({ g with snake := pr.1, state := .GameOver }, .GameOver)
        else if head = g.food then
          (Game.spawn_food f fuel
              { g with snake := pr.1.grow pr.2, score := g.score + 10 }).map
            fun g2 => (g2, GameEvent.FoodEaten)
        else
          some ({ g with snake := pr.1 }, GameEvent.Moved)

/-- `GameConfig` (src/config.rs), colour fields omitted (ratatui presentation
data, not referenced by any engine or high-score logic). -/
structure GameConfig where
  board_width : Nat
  board_height : Nat
  enable_sound : Bool
  enable_colors : Bool
  wall_wrapping : Bool
  high_score : Nat
deriving DecidableEq, Repr

/-- `GameConfig::update_high_score`. -/
def GameConfig.update_high_score (c : GameConfig) (score : Nat) : GameConfig :=
  if score > c.high_score then { c with high_score := score } else c

/-- A constant sample stream used to instantiate concrete scenarios. -/
def constStream : Nat → Position := fun _ => ⟨0, 0⟩

/-! ## Helper lemmas -/

theorem Snake.move_forward_cons (s : Snake) (h : Position) (t : List Position)
    (hb : s.body = h :: t) :
    s.move_forward = some
      ({ body := stepSaturating s.direction h :: (h :: t).dropLast,
         direction := s.direction },
        (h :: t).getLast (List.cons_ne_nil h t)) := by
  obtain ⟨b0, d0⟩ := s
  simp only at hb
  subst hb
  rfl

theorem Snake.move_forward_with_wrapping_cons (s : Snake) (h : Position)
    (t : List Position) (W H : Nat) (hb : s.body = h :: t) :
    s.move_forward_with_wrapping W H = some
      ({ body := stepWrapping s.direction h W H :: (h :: t).dropLast,
         direction := s.direction },
        (h :: t).getLast (List.cons_ne_nil h t)) := by
  obtain ⟨b0, d0⟩ := s
  simp only at hb
  subst hb
  rfl

theorem Game.moveStep_length (g : Game) (s2 : Snake) (tl : Position)
    (hmove : g.moveStep = some (s2, tl)) :
    s2.body.length = g.snake.body.length := by
  rcases hbody : g.snake.body with _ | ⟨h, t⟩
  · unfold Game.moveStep Snake.move_forward Snake.move_forward_with_wrapping at hmove
    rcases hww : g.wall_wrapping <;> simp [hww, hbody] at hmove
  · rcases hww : g.wall_wrapping
    · rw [Game.moveStep] at hmove
      simp only [hww, Bool.false_eq_true, if_false] at hmove
      rw [Snake.move_forward_cons g.snake h t hbody] at hmove
      simp only [Option.some_inj, Prod.mk.injEq] at hmove
      obtain ⟨hs2, -⟩ := hmove
      rw [← hs2]
      simp
    · rw [Game.moveStep] at hmove
      simp only [hww, if_true] at hmove
      rw [Snake.move_forward_with_wrapping_cons g.snake h t _ _ hbody] at hmove
      simp only [Option.some_inj, Prod.mk.injEq] at hmove
      obtain ⟨hs2, -⟩ := hmove
      rw [← hs2]
      simp

theorem findFood_not_mem (f : Nat → Position) (body : List Position) :
    ∀ (fuel idx : Nat) (p : Position),
      findFood f body fuel idx = some p → p ∉ body := by
  intro fuel
  induction fuel with
  | zero => intro idx p hp; simp [findFood] at hp
  | succ n ih =>
    intro idx p hp
    rw [findFood] at hp
    by_cases hm : f idx ∈ body
    · rw [if_pos hm] at hp
      exact ih _ _ hp
    · rw [if_neg hm] at hp
      cases hp
      exact hm

theorem findFood_succeeds (f : Nat → Position) (body : List Position) :
    ∀ (n idx : Nat), f (idx + n) ∉ body →
      ∃ p, findFood f body (n + 1) idx = some p := by
  intro n
  induction n with
  | zero =>
    intro idx h
    refine ⟨f idx, ?_⟩
    rw [findFood, if_neg (by simpa using h)]
  | succ n ih =>
    intro idx h
    by_cases hm : f idx ∈ body
    · obtain ⟨p, hp⟩ := ih (idx + 1) (by rw [Nat.add_right_comm]; exact h)
      exact ⟨p, by rw [findFood, if_pos hm]; exact hp⟩
    · exact ⟨f idx, by rw [findFood, if_neg hm]⟩

theorem Snake.growStep_spec (s : Snake) (h : Position) (t : List Position)
    (hb : s.body = h :: t) :
    ∃ s2, s.growStep = some s2 ∧ s2.body.length = s.body.length + 1 ∧
      s2.body ≠ [] := by
  have hmf := Snake.move_forward_cons s h t hb
  refine ⟨(Snake.mk (stepSaturating s.direction h :: (h :: t).dropLast)
      s.direction).grow ((h :: t).getLast (List.cons_ne_nil h t)), ?_, ?_, ?_⟩
  · rw [Snake.growStep, hmf]
    rfl
  · simp [Snake.grow, hb]
  · simp [Snake.grow]

theorem Snake.growRepeat_spec (n : Nat) :
    ∀ s : Snake, s.body ≠ [] →
      ∃ s2, s.growRepeat n = some s2 ∧ s2.body.length = s.body.length + n ∧
        s2.body ≠ [] := by
  induction n with
  | zero => intro s hs; exact ⟨s, rfl, by simp [Snake.growRepeat], hs⟩
  | succ n ih =>
    intro s hs
    obtain ⟨h, t, hb⟩ := List.exists_cons_of_ne_nil hs
    obtain ⟨s1, hgs, hlen1, hne1⟩ := Snake.growStep_spec s h t hb
    obtain ⟨s2, hgr, hlen2, hne2⟩ := ih s1 hne1
    refine ⟨s2, ?_, by omega, hne2⟩
    rw [Snake.growRepeat, hgs, Option.some_bind, hgr]

theorem GameConfig.update_high_score_le (c : GameConfig) (s : Nat) :
    c.high_score ≤ (c.update_high_score s).high_score := by
  unfold GameConfig.update_high_score
  split
  · exact Nat.le_of_lt (by assumption)
  · exact Nat.le_refl _

theorem GameConfig.foldl_update_high_score_le (l : List Nat) :
    ∀ c : GameConfig, c.high_score ≤ (l.foldl GameConfig.update_high_score c).high_score := by
  induction l with
  | nil => intro c; exact Nat.le_refl _
  | cons a l ih =>
    intro c
    exact Nat.le_trans (GameConfig.update_high_score_le c a) (ih _)

/-! ## Claim theorems -/

/-- C5: on a non-empty snake, `move_forward` pushes a new head one step in the
current direction (with `Nat`/saturating subtraction clamping at the zero
boundary, never wrapping around), pops and returns the old tail segment, and
leaves the body length unchanged. -/
theorem c5_move_forward_spec (s : Snake) (h : Position) (t : List Position)
    (hb : s.body = h :: t) :
    ∃ (s2 : Snake) (tl nh : Position), s.move_forward = some (s2, tl) ∧
      s2.body = nh :: s.body.dropLast ∧
      s2.direction = s.direction ∧
      s2.body.length = s.body.length ∧
      tl = (h :: t).getLast (List.cons_ne_nil h t) ∧
      (s.direction = .Up → nh = ⟨h.x, h.y - 1⟩) ∧
      (s.direction = .Down → nh = ⟨h.x, h.y + 1⟩) ∧
      (s.direction = .Left → nh = ⟨h.x - 1, h.y⟩) ∧
      (s.direction = .Right → nh = ⟨h.x + 1, h.y⟩) ∧
      (s.direction = .Up → h.y = 0 → nh.y = 0) ∧
      (s.direction = .Left → h.x = 0 → nh.x = 0) := by
  refine ⟨_, _, stepSaturating s.direction h, Snake.move_forward_cons s h t hb,
    by rw [hb], rfl, by rw [hb]; simp, rfl, ?_, ?_, ?_, ?_, ?_, ?_⟩ <;>
    intro hd <;> simp [stepSaturating, hd]
  · intro h0; simp [h0]
  · intro h0; simp [h0]

/-- C5 witness: a length-1-tail snake at the top edge moving Up saturates at
y = 0 and keeps its length. -/
theorem c5_witness :
    ((Snake.move_forward ⟨[⟨2, 0⟩, ⟨2, 1⟩], .Up⟩).map fun pr => (pr.1.body, pr.2)) =
      some ([⟨2, 0⟩, ⟨2, 0⟩], ⟨2, 1⟩) := by
  obtain ⟨s2, tl, nh, heq, hcons, hdir, hlen, htl, hup, -⟩ :=
    c5_move_forward_spec ⟨[⟨2, 0⟩, ⟨2, 1⟩], .Up⟩ ⟨2, 0⟩ [⟨2, 1⟩] rfl
  have hnh : nh = ⟨2, 0⟩ := hup rfl
  rw [heq]
  simp only [Option.map_some']
  rw [hcons, hnh, htl]
  rfl

/-- C7: while Paused or GameOver, `update` is a no-op returning the neutral
event and leaving every component of the game unchanged. -/
theorem c7_update_noop (f : Nat → Position) (fuel : Nat) (g : Game)
    (h : g.state = .Paused ∨ g.state = .GameOver) :
    Game.update f fuel g = some (g, GameEvent.None) := by
  have hne : g.state ≠ .Playing := by rcases h with h | h <;> simp [h]
  rw [Game.update, if_pos hne]

/-- C7 witness: a concrete paused game is left untouched by `update`. -/
theorem c7_witness :
    Game.update constStream 1
        ⟨⟨[⟨1, 1⟩], .Right⟩, ⟨0, 0⟩, 5, .Paused, 5, 5, false⟩ =
      some (⟨⟨[⟨1, 1⟩], .Right⟩, ⟨0, 0⟩, 5, .Paused, 5, 5, false⟩, GameEvent.None) :=
  c7_update_noop constStream 1 _ (Or.inl rfl)

/-- C8: `set_direction d` updates the direction to `d` (body untouched) when
`d` is not the opposite of the current direction, and is a silent no-op when
`d` is exactly the opposite. -/
theorem c8_set_direction_spec (s : Snake) (d : Direction) :
    (d ≠ s.direction.opposite →
      s.set_direction d = { s with direction := d }) ∧
    (d = s.direction.opposite → s.set_direction d = s) := by
  constructor <;> intro h <;> simp [Snake.set_direction, h]

/-- C8 witness: from direction Right, turning Up succeeds and turning Left
(the exact opposite) is ignored. -/
theorem c8_witness :
    Snake.set_direction ⟨[⟨1, 1⟩], .Right⟩ .Up = ⟨[⟨1, 1⟩], .Up⟩ ∧
    Snake.set_direction ⟨[⟨1, 1⟩], .Right⟩ .Left = ⟨[⟨1, 1⟩], .Right⟩ :=
  ⟨(c8_set_direction_spec ⟨[⟨1, 1⟩], .Right⟩ .Up).1 (by decide),
    (c8_set_direction_spec ⟨[⟨1, 1⟩], .Right⟩ .Left).2 (by decide)⟩

/-- C9: `update_high_score` stores exactly `max (previous high score) score`,
so the stored high score never decreases, including along any sequence of
updates (one per observed game over). -/
theorem c9_update_high_score_spec (c : GameConfig) (score : Nat) :
    (c.update_high_score score).high_score = max c.high_score score ∧
    c.high_score ≤ (c.update_high_score score).high_score ∧
    ∀ l : List Nat,
      c.high_score ≤ (l.foldl GameConfig.update_high_score c).high_score := by
  refine ⟨?_, GameConfig.update_high_score_le c score,
    fun l => GameConfig.foldl_update_high_score_le l c⟩
  unfold GameConfig.update_high_score
  split
  · have : c.high_score ≤ score := Nat.le_of_lt (by assumption)
    simp [Nat.max_eq_right this]
  · have : score ≤ c.high_score := Nat.le_of_not_lt (by assumption)
    simp [Nat.max_eq_left this]

/-- A concrete prior game used to exercise `reset`: 10×10 board, wrapping on,
score 30, state GameOver, seed snake at (5,5). -/
def c1Game : Game := ⟨Snake.new ⟨5, 5⟩, ⟨0, 0⟩, 30, .GameOver, 10, 10, true⟩

/-- The game produced by `reset` on `c1Game` with the constant sample stream. -/
def c1After : Game :=
  ⟨⟨[⟨9, 5⟩, ⟨8, 5⟩, ⟨7, 5⟩, ⟨6, 5⟩, ⟨5, 5⟩], .Right⟩, ⟨0, 0⟩, 0, .Playing, 10, 10, true⟩

/-- C1 counterexample: after `reset`, the snake has length 5, not 4 — the
seeding performs `INITIAL_SNAKE_LENGTH = 4` move-and-regrow steps starting
from a single segment, each adding one segment. -/
theorem c1_counterexample :
    ((Game.reset constStream 1 c1Game).map fun g => g.snake.body.length) = some 5 ∧
    ((Game.reset constStream 1 c1Game).map fun g => g.snake.body.length) ≠ some 4 := by
  constructor <;> decide

/-- C1 (amended): from any prior state, score and snake, `reset` leaves the
game Playing with score 0 and a snake of length 5 (one starting segment plus
`INITIAL_SNAKE_LENGTH = 4` regrow steps — the same length `Game::new`
produces), and preserves the wall-wrapping flag and the board dimensions. -/
theorem c1_reset_spec :
    (∀ (f : Nat → Position) (fuel : Nat) (g g' : Game),
        Game.reset f fuel g = some g' →
        g'.state = .Playing ∧ g'.score = 0 ∧ g'.snake.body.length = 5 ∧
        g'.wall_wrapping = g.wall_wrapping ∧ g'.board_width = g.board_width ∧
        g'.board_height = g.board_height) ∧
    (∀ (f : Nat → Position) (fuel W H : Nat) (g0 : Game),
        Game.new f fuel W H = some g0 → g0.snake.body.length = 5) := by
  constructor
  · intro f fuel g g' hreset
    rw [Game.reset, Game.grow_to_initial_length] at hreset
    obtain ⟨s4, hgr, hlen, -⟩ :=
      Snake.growRepeat_spec INITIAL_SNAKE_LENGTH
        (Snake.new ⟨g.board_width / 2, g.board_height / 2⟩) (by simp [Snake.new])
    rw [hgr] at hreset
    simp only [Option.map_some', Option.some_bind, Game.spawn_food] at hreset
    rcases hff : findFood f s4.body fuel 0 with - | p
    · rw [hff] at hreset; simp at hreset
    · rw [hff] at hreset
      simp only [Option.map_some', Option.some_inj] at hreset
      rw [← hreset]
      refine ⟨rfl, rfl, ?_, rfl, rfl, rfl⟩
      simpa [Snake.new, INITIAL_SNAKE_LENGTH] using hlen
  · intro f fuel W H g0 hnew
    rw [Game.new] at hnew
    simp only [Game.grow_to_initial_length] at hnew
    obtain ⟨s4, hgr, hlen, -⟩ :=
      Snake.growRepeat_spec INITIAL_SNAKE_LENGTH
        (Snake.new ⟨W / 2, H / 3⟩) (by simp [Snake.new])
    rw [hgr] at hnew
    simp only [Option.map_some', Option.some_bind, Game.spawn_food] at hnew
    rcases hff : findFood f s4.body fuel 0 with - | p
    · rw [hff] at hnew; simp at hnew
    · rw [hff] at hnew
      simp only [Option.map_some', Option.some_inj] at hnew
      rw [← hnew]
      simpa [Snake.new, INITIAL_SNAKE_LENGTH] using hlen

/-- C1 witness: resetting the concrete GameOver game with score 30 yields
state Playing, score 0, length 5, wrapping preserved. -/
theorem c1_witness :
    c1After.state = GameState.Playing ∧ c1After.score = 0 ∧
    c1After.snake.body.length = 5 ∧
    c1After.wall_wrapping = c1Game.wall_wrapping ∧
    c1After.board_width = c1Game.board_width ∧
    c1After.board_height = c1Game.board_height := by
  have h : Game.reset constStream 1 c1Game = some c1After := by decide
  exact c1_reset_spec.1 constStream 1 c1Game c1After h

/-- C3: with wrapping disabled, while Playing, a move whose new head leaves
`[0,width)×[0,height)` makes `update` set the state to GameOver and return the
GameOver event immediately — score, food and everything else untouched. -/
theorem c3_wall_gameover (f : Nat → Position) (fuel : Nat) (g : Game)
    (h : Position) (t : List Position)
    (hplay : g.state = .Playing) (hwrap : g.wall_wrapping = false)
    (hbody : g.snake.body = h :: t)
    (hoob : g.is_out_of_bounds (stepSaturating g.snake.direction h) = true) :
    Game.update f fuel g =
      some ({ g with
        snake := ⟨stepSaturating g.snake.direction h :: (h :: t).dropLast,
          g.snake.direction⟩,
        state := .GameOver }, .GameOver) := by
  rw [Game.update, if_neg (by simp [hplay])]
  rw [Game.moveStep]
  simp only [hwrap, Bool.false_eq_true, if_false]
  rw [Snake.move_forward_cons g.snake h t hbody]
  simp only [Option.some_bind, List.head?_cons]
  rw [if_pos (by simp [hwrap, hoob])]

/-- C3 witness: the spec's scenario — 5×5 board, wrapping disabled, head at
(4,2) moving Right — is GameOver after one `update`. -/
theorem c3_witness :
    Game.update constStream 1 (⟨⟨[⟨4, 2⟩], .Right⟩, ⟨0, 0⟩, 0, .Playing, 5, 5, false⟩ : Game) =
      some (⟨⟨[⟨5, 2⟩], .Right⟩, ⟨0, 0⟩, 0, .GameOver, 5, 5, false⟩, .GameOver) := by
  have h := c3_wall_gameover constStream 1
    (⟨⟨[⟨4, 2⟩], .Right⟩, ⟨0, 0⟩, 0, .Playing, 5, 5, false⟩ : Game)
    ⟨4, 2⟩ [] rfl rfl rfl (by decide)
  exact h

/-- C4: with wrapping disabled (on a positive-size board whose food respects
the food-not-on-snake invariant), a length-1 snake moving Left from the left
edge (or Up from the top edge) saturates in place, stays in bounds, and
`update` returns Moved with the game unchanged — the zero-boundary walls can
never trigger the out-of-bounds GameOver. -/
theorem c4_zero_wall_moved (f : Nat → Position) (fuel : Nat) (g : Game)
    (x y : Nat)
    (hplay : g.state = .Playing) (hwrap : g.wall_wrapping = false)
    (hw : 0 < g.board_width) (hh : 0 < g.board_height)
    (hfood : g.food ∉ g.snake.body)
    (hcase :
      (g.snake.body = [⟨0, y⟩] ∧ y < g.board_height ∧ g.snake.direction = .Left) ∨
      (g.snake.body = [⟨x, 0⟩] ∧ x < g.board_width ∧ g.snake.direction = .Up)) :
    Game.update f fuel g = some (g, GameEvent.Moved) := by
  obtain ⟨⟨sb, sd⟩, food, score, state, W, H, wrap⟩ := g
  subst hplay hwrap
  dsimp only at hw hh hfood hcase
  rcases hcase with ⟨hb, hy, hd⟩ | ⟨hb, hx, hd⟩ <;>
    subst hb hd <;>
    simp only [List.mem_singleton] at hfood <;>
    rw [Game.update, if_neg (by simp), Game.moveStep] <;>
    simp only [Bool.false_eq_true, if_false] <;>
    rw [Snake.move_forward_cons _ _ _ rfl] <;>
    simp only [Option.some_bind, List.head?_cons, stepSaturating,
      List.dropLast_single, Nat.zero_sub] <;>
    rw [if_neg (by simp [Game.is_out_of_bounds]; omega),
      if_neg (by simp [Snake.check_self_collision]),
      if_neg (by simpa using fun hh2 => hfood hh2.symm)]

/-- C4 witness: a length-1 snake at (0,3) moving Left on a 5×5 solid-wall
board just stays put with a Moved event. -/
theorem c4_witness :
    Game.update constStream 1 (⟨⟨[⟨0, 3⟩], .Left⟩, ⟨2, 2⟩, 7, .Playing, 5, 5, false⟩ : Game) =
      some (⟨⟨[⟨0, 3⟩], .Left⟩, ⟨2, 2⟩, 7, .Playing, 5, 5, false⟩, GameEvent.Moved) :=
  c4_zero_wall_moved constStream 1 _ 0 3 rfl rfl (by decide) (by decide)
    (by decide) (Or.inl ⟨rfl, by decide, rfl⟩)

/-- The spec's wrapping scenario: 5×5 board, wrapping enabled, length-1 snake
with head (4,2) moving Right (food kept off the path at (1,1)). -/
def c6Game : Game := ⟨⟨[⟨4, 2⟩], .Right⟩, ⟨1, 1⟩, 0, .Playing, 5, 5, true⟩

/-- C6: `move_forward_with_wrapping` wraps at every edge of a W×H board
(Left from x=0 to x=W−1, Right from x=W−1 to x=0, Up from y=0 to y=H−1,
Down from y=H−1 to y=0), and consequently the 5×5 engine scenario with
wrapping enabled moves the head from (4,2) to (0,2) with a Moved event,
state still Playing. -/
theorem c6_wrapping_spec :
    (∀ (s : Snake) (h : Position) (t : List Position) (W H : Nat),
        1 ≤ W → 1 ≤ H → s.body = h :: t →
        ∃ (s2 : Snake) (tl nh : Position),
          s.move_forward_with_wrapping W H = some (s2, tl) ∧
          s2.body = nh :: s.body.dropLast ∧
          s2.body.length = s.body.length ∧
          (s.direction = .Left → h.x = 0 → nh = ⟨W - 1, h.y⟩) ∧
          (s.direction = .Right → h.x = W - 1 → nh = ⟨0, h.y⟩) ∧
          (s.direction = .Up → h.y = 0 → nh = ⟨h.x, H - 1⟩) ∧
          (s.direction = .Down → h.y = H - 1 → nh = ⟨h.x, 0⟩)) ∧
    Game.update constStream 1 c6Game =
      some ({ c6Game with snake := ⟨[⟨0, 2⟩], .Right⟩ }, GameEvent.Moved) := by
  constructor
  · intro s h t W H hW hH hb
    refine ⟨_, _, stepWrapping s.direction h W H,
      Snake.move_forward_with_wrapping_cons s h t W H hb,
      by rw [hb], by rw [hb]; simp, ?_, ?_, ?_, ?_⟩ <;>
      intro hd he <;> simp [stepWrapping, hd, he]
  · decide

/-- C6 witness: the general edge law applied at a concrete snake — moving
Left from x = 0 on a 5×5 board wraps the head to x = 4. -/
theorem c6_witness :
    ((Snake.move_forward_with_wrapping ⟨[⟨0, 2⟩], .Left⟩ 5 5).map
        fun pr => pr.1.body) = some [⟨4, 2⟩] := by
  obtain ⟨s2, tl, nh, heq, hcons, hlen, hleft, -⟩ :=
    c6_wrapping_spec.1 ⟨[⟨0, 2⟩], .Left⟩ ⟨0, 2⟩ [] 5 5 (by decide) (by decide) rfl
  have hnh : nh = ⟨4, 2⟩ := hleft rfl rfl
  rw [heq]
  simp only [Option.map_some']
  rw [hcons, hnh]
  rfl

/-- C2: while Playing, if the moved head lands on the food (with neither the
wall check nor self-collision firing) and `update` returns, then the event is
FoodEaten, the score grows by exactly 10, the snake regains its vacated tail
(length exactly +1), the freshly spawned food misses every snake segment, and
the state stays Playing. -/
theorem c2_food_eaten (f : Nat → Position) (fuel : Nat) (g g' : Game)
    (s2 : Snake) (tl : Position) (e : GameEvent)
    (hplay : g.state = .Playing)
    (hmove : g.moveStep = some (s2, tl))
    (hhead : s2.body.head? = some g.food)
    (hwall : ¬ (g.wall_wrapping = false ∧ g.is_out_of_bounds g.food = true))
    (hself : s2.check_self_collision = false)
    (hupd : Game.update f fuel g = some (g', e)) :
    e = GameEvent.FoodEaten ∧ g'.score = g.score + 10 ∧
    g'.snake.body = s2.body ++ [tl] ∧
    g'.snake.body.length = g.snake.body.length + 1 ∧
    g'.food ∉ g'.snake.body ∧ g'.state = .Playing := by
  rw [Game.update, if_neg (by simp [hplay]), hmove, Option.some_bind, hhead,
    Option.some_bind] at hupd
  have hcond : (!g.wall_wrapping && g.is_out_of_bounds g.food) = false := by
    rcases hww : g.wall_wrapping
    · rcases hoob : g.is_out_of_bounds g.food
      · simp
      · exact absurd ⟨hww, hoob⟩ hwall
    · simp
  rw [hcond] at hupd
  simp only [Bool.false_eq_true, if_false] at hupd
  rw [hself] at hupd
  simp only [Bool.false_eq_true, if_false, if_pos rfl, Game.spawn_food] at hupd
  rcases hff : findFood f (s2.grow tl).body fuel 0 with - | p
  · rw [hff] at hupd
    simp at hupd
  · rw [hff] at hupd
    simp only [if_true, Option.map_some', Option.some_inj, Prod.mk.injEq] at hupd
    obtain ⟨hg', he⟩ := hupd
    subst he
    rw [← hg']
    refine ⟨rfl, rfl, rfl, ?_, ?_, by simpa using hplay⟩
    · simp [Snake.grow, Game.moveStep_length g s2 tl hmove]
    · simpa [Snake.grow] using findFood_not_mem f (s2.grow tl).body fuel 0 p hff

/-- The eating scenario: 5×5 solid-wall board, length-1 snake at (1,2) moving
Right onto the food at (2,2). -/
def c2Game : Game := ⟨⟨[⟨1, 2⟩], .Right⟩, ⟨2, 2⟩, 0, .Playing, 5, 5, false⟩

/-- The game after `update` on `c2Game`: tail re-appended, score 10, fresh
food at (0,0). -/
def c2After : Game := ⟨⟨[⟨2, 2⟩, ⟨1, 2⟩], .Right⟩, ⟨0, 0⟩, 10, .Playing, 5, 5, false⟩

/-- C2 witness: eating the food at (2,2) yields score +10, length 2, food
off the snake, state Playing. -/
theorem c2_witness :
    c2After.score = c2Game.score + 10 ∧
    c2After.snake.body.length = c2Game.snake.body.length + 1 ∧
    c2After.food ∉ c2After.snake.body ∧ c2After.state = GameState.Playing := by
  have hupd : Game.update constStream 1 c2Game = some (c2After, .FoodEaten) := by
    decide
  have hmove : c2Game.moveStep = some (⟨[⟨2, 2⟩], .Right⟩, ⟨1, 2⟩) := by decide
  have h := c2_food_eaten constStream 1 c2Game c2After ⟨[⟨2, 2⟩], .Right⟩ ⟨1, 2⟩
    .FoodEaten rfl hmove (by decide) (by decide) (by decide) hupd
  exact ⟨h.2.1, h.2.2.2.1, h.2.2.2.2.1, h.2.2.2.2.2⟩

/-- C10: if the sample stream eventually proposes every in-board cell (the
deterministic counterpart of uniform sampling) and at least one in-board cell
is free of the snake, then the reject-and-resample loop of `spawn_food`
terminates, and the food it sets coincides with no snake segment. -/
theorem c10_spawn_food_terminates (f : Nat → Position) (g : Game)
    (hfair : ∀ p : Position, p.x < g.board_width → p.y < g.board_height →
      ∃ k, f k = p)
    (hfree : ∃ p : Position, p.x < g.board_width ∧ p.y < g.board_height ∧
      p ∉ g.snake.body) :
    ∃ (fuel : Nat) (g' : Game), Game.spawn_food f fuel g = some g' ∧
      g'.food ∉ g.snake.body ∧ g'.snake = g.snake ∧ g'.score = g.score ∧
      g'.state = g.state := by
  obtain ⟨p, hx, hy, hp⟩ := hfree
  obtain ⟨k, hk⟩ := hfair p hx hy
  have hfk : f (0 + k) ∉ g.snake.body := by
    rw [Nat.zero_add, hk]
    exact hp
  obtain ⟨q, hq⟩ := findFood_succeeds f g.snake.body k 0 hfk
  exact ⟨k + 1, { g with food := q }, by rw [Game.spawn_food, hq]; rfl,
    findFood_not_mem f g.snake.body (k + 1) 0 q hq, rfl, rfl, rfl⟩

/-- A game on a 1×1 board whose (arbitrary, unreachable-cell) snake leaves
the single board cell free. -/
def c10Game : Game := ⟨⟨[⟨7, 7⟩], .Right⟩, ⟨9, 9⟩, 0, .Playing, 1, 1, false⟩

/-- C10 witness: on the 1×1 board with the constant (0,0) stream, spawning
terminates with the food at a cell off the snake. -/
theorem c10_witness :
    ∃ (fuel : Nat) (g' : Game), Game.spawn_food constStream fuel c10Game = some g' ∧
      g'.food ∉ c10Game.snake.body ∧ g'.snake = c10Game.snake ∧
      g'.score = c10Game.score ∧ g'.state = c10Game.state := by
  apply c10_spawn_food_terminates
  · intro p hx hy
    obtain ⟨px, py⟩ := p
    have hx0 : px = 0 := Nat.lt_one_iff.mp hx
    have hy0 : py = 0 := Nat.lt_one_iff.mp hy
    subst hx0 hy0
    exact ⟨0, rfl⟩
  · exact ⟨⟨0, 0⟩, by decide, by decide, by decide⟩

end SnakeRs
